import Mathlib

/-
Shallow embedding of the ClickUp image downloader
(src/clickup_get_images.py) and proofs about it.

Modelling conventions:
  - The filesystem is an association list from (output-root-relative)
    path strings to file byte sizes.
  - Each of the three persisted ledger files is modelled by `LedgerFile`:
    `missing` (file absent), `corrupt` (present but JSON decoding or the
    read raises), `valid v` (present and decodes to `v`).
  - `time.time()` is modelled by a natural-number clock stored in the
    state; each call returns the clock and advances it.
  - Network behaviour is an input to each function: `NetResult` describes
    the outcome of one streamed GET, and the orchestrator takes the
    task-detail endpoint as a function from task id to an `Outcome`.
  - Python truthiness on the optional `expected_size` argument
    (`if expected_size and ...`) is `truthyNat`: `None` and `0` are falsy.
  - `int(content_length)` is `pyInt`; a non-empty string it cannot parse
    corresponds to the `ValueError` that `int` raises.
-/

/-- Association-list lookup, keyed by strings (a Python dict lookup). -/
def assocGet {α : Type} : List (String × α) → String → Option α
  | [], _ => none
  | (k, v) :: rest, key => if k = key then some v else assocGet rest key

/-- Association-list update/insert (a Python dict assignment). -/
def assocSet {α : Type} : List (String × α) → String → α → List (String × α)
  | [], key, v => [(key, v)]
  | (k, w) :: rest, key, v =>
      if k = key then (key, v) :: rest else (k, w) :: assocSet rest key v

/-- Association-list deletion (removing a file from the filesystem). -/
def assocDel {α : Type} : List (String × α) → String → List (String × α)
  | [], _ => []
  | (k, w) :: rest, key =>
      if k = key then assocDel rest key else (k, w) :: assocDel rest key

/-- One entry of `.download_metadata.json`: the value stored under a
destination-path key by `record_download`. -/
structure MetaRecord where
  url : String
  size : Nat
  downloaded_at : Nat
deriving DecidableEq

/-- One entry of `.failed_downloads.json`, appended by `log_failed_download`. -/
structure FailedRecord where
  url : String
  dest : String
  error : String
  failed_at : Nat
deriving DecidableEq

/-- State of one persisted ledger file on disk: absent, present but failing
to decode (JSONDecodeError/IOError), or present with decoded content. -/
inductive LedgerFile (α : Type) where
  | missing : LedgerFile α
  | corrupt : LedgerFile α
  | valid (v : α) : LedgerFile α
deriving DecidableEq

/-- The local state the script reads and writes: the downloaded files
(path to byte size), the three ledger files, and the clock. -/
structure DiskState where
  files : List (String × Nat)
  metadataFile : LedgerFile (List (String × MetaRecord))
  failedFile : LedgerFile (List FailedRecord)
  processedFile : LedgerFile (List String)
  clock : Nat
deriving DecidableEq

/-- Embeds `load_metadata` (lines 29-36): return the parsed dict, or `{}`
when the file is missing or raises `JSONDecodeError`/`IOError`. Total: the
exception is swallowed inside the function. -/
def load_metadata : LedgerFile (List (String × MetaRecord)) → List (String × MetaRecord)
  | .valid m => m
  | .missing => []
  | .corrupt => []

/-- Embeds `load_failed_downloads` (lines 82-89): parsed list or `[]`. -/
def load_failed_downloads : LedgerFile (List FailedRecord) → List FailedRecord
  | .valid l => l
  | .missing => []
  | .corrupt => []

/-- Embeds `load_processed_tasks` (lines 103-110): parsed set or empty set.
The Python set is modelled as a duplicate-free list used through membership. -/
def load_processed_tasks : LedgerFile (List String) → List String
  | .valid l => l
  | .missing => []
  | .corrupt => []

/-- Python truthiness of the optional integer `expected_size`:
`None` and `0` are falsy, any other number is truthy. -/
def truthyNat : Option Nat → Bool
  | none => false
  | some n => decide (n ≠ 0)

/-- File-existence test `file_path.exists()`. -/
def fileExists (st : DiskState) (p : String) : Bool :=
  (assocGet st.files p).isSome

/-- File size `file_path.stat().st_size`, `none` when the file is absent. -/
def fileSize (st : DiskState) (p : String) : Option Nat :=
  assocGet st.files p

/-- Embeds `is_duplicate` (lines 50-70). Paths are kept output-root
relative throughout, so `str(file_path.relative_to(OUT_DIR))` is the
path itself. The guard `if expected_size and size != expected_size`
uses Python truthiness: `truthyNat`. -/
def is_duplicate (st : DiskState) (file_path url : String)
    (expected_size : Option Nat) : Bool :=
  if fileExists st file_path = false then false
  else if truthyNat expected_size = true ∧ fileSize st file_path ≠ expected_size then false
  else
    match assocGet (load_metadata st.metadataFile) file_path with
    | some stored =>
        if stored.url = url ∧ fileExists st file_path = true ∧
            some stored.size = fileSize st file_path
        then true else false
    | none => false

/-- Embeds `record_download` (lines 72-80): reload the metadata store,
upsert `{url, size, downloaded_at: time.time()}` under the path key, and
rewrite the whole file. -/
def record_download (st : DiskState) (path url : String) (size : Nat) : DiskState :=
  { st with
    metadataFile :=
      .valid (assocSet (load_metadata st.metadataFile) path ⟨url, size, st.clock⟩)
    clock := st.clock + 1 }

/-- Embeds `log_failed_download` (lines 91-101): reload the failure list,
append `{url, dest, error, failed_at: time.time()}`, rewrite the file. -/
def log_failed_download (st : DiskState) (url dest err : String) : DiskState :=
  { st with
    failedFile :=
      .valid (load_failed_downloads st.failedFile ++ [⟨url, dest, err, st.clock⟩])
    clock := st.clock + 1 }

/-- Set insertion used by `mark_task_processed` (`processed_tasks.add`). -/
def setInsert (s : List String) (x : String) : List String :=
  if x ∈ s then s else s ++ [x]

/-- Embeds `mark_task_processed` (lines 112-117): reload the processed set,
add the id, rewrite the whole file. -/
def mark_task_processed (st : DiskState) (tid : String) : DiskState :=
  { st with
    processedFile := .valid (setInsert (load_processed_tasks st.processedFile) tid) }

/-- Write a file: `open(dest, "wb")` truncates, the chunks then leave the
file with the given total size. -/
def writeFile (st : DiskState) (p : String) (n : Nat) : DiskState :=
  { st with files := assocSet st.files p n }

/-- Delete a file: `dest.unlink()`. -/
def deleteFile (st : DiskState) (p : String) : DiskState :=
  { st with files := assocDel st.files p }

/-- Python truthiness of the optional `content-length` header string:
`None` and the empty string are falsy. -/
def truthyStr : Option String → Bool
  | none => false
  | some s => decide (s ≠ "")

/-- Digit value of a character, `none` for a non-digit. -/
def charDigit (c : Char) : Option Nat :=
  if 48 ≤ c.toNat ∧ c.toNat ≤ 57 then some (c.toNat - 48) else none

/-- Accumulate the decimal value of a digit run; `none` at a non-digit. -/
def parseDigitsFrom (acc : Nat) : List Char → Option Nat
  | [] => some acc
  | c :: cs =>
      match charDigit c with
      | some d => parseDigitsFrom (acc * 10 + d) cs
      | none => none

/-- A non-empty run of decimal digits. -/
def parseDigits : List Char → Option Nat
  | [] => none
  | c :: cs =>
      match charDigit c with
      | some d => parseDigitsFrom d cs
      | none => none

/-- Model of Python `int(s)` on a header string: an optional sign followed
by decimal digits gives `some n`; anything else is the `ValueError` that
`int` raises, giving `none`. (The source discards the parsed value; only
whether `int` raises is ever observable.) -/
def pyInt (s : String) : Option Int :=
  match s.data with
  | '-' :: rest => (parseDigits rest).map (fun n => -(n : Int))
  | '+' :: rest => (parseDigits rest).map (fun n => (n : Int))
  | l => (parseDigits l).map (fun n => (n : Int))

/-- Outcome of the streamed `requests.get` inside `download`:
`ok content_length bytes` is a 2xx response whose body streams fully,
writing `bytes` bytes; `fail written msg` is a `RequestException`
(connection error, timeout, `raise_for_status`, or a mid-stream error) —
`written = some w` when the output file had already been opened and holds
`w` bytes at the moment of the exception, `none` when the exception fired
before the file was opened. -/
inductive NetResult where
  | ok (content_length : Option String) (bytes : Nat) : NetResult
  | fail (written : Option Nat) (msg : String) : NetResult
deriving DecidableEq

/-- Embeds `download` (lines 147-170). `dest.parent.mkdir` is a no-op in
the model (directories are implicit). On a 2xx response the code first
computes `expected_size = int(content_length) if content_length else None`
— a value it never uses afterwards; when the header is a non-empty string
that `int` cannot parse, the `ValueError` is not a `RequestException`, so
it escapes the `except` clause: that is the `.error` result. Otherwise the
body is streamed to `dest`, the written file is re-statted for its actual
size, and that size is recorded. On a `RequestException` the failure is
logged, then `dest` is unlinked if it exists, and `False` is returned. -/
def download (st : DiskState) (net : NetResult) (url dest : String) :
    Except String (DiskState × Bool) :=
  match net with
  | .ok content_length bytes =>
      if truthyStr content_length = true ∧ pyInt (content_length.getD "") = none then
        .error "ValueError: invalid literal for int() with base 10"
      else
        let st1 := writeFile st dest bytes
        let actual_size := (fileSize st1 dest).getD 0
        .ok (record_download st1 dest url actual_size, true)
  | .fail written msg =>
      let st1 := match written with
        | some w => writeFile st dest w
        | none => st
      let st2 := log_failed_download st1 url dest msg
      let st3 := if fileExists st2 dest = true then deleteFile st2 dest else st2
      .ok (st3, false)

/-- Observer: did `download` raise past its boundary. -/
def dlRaised : Except String (DiskState × Bool) → Bool
  | .error _ => true
  | .ok _ => false

/-- Observer: the boolean `download` returned (`false` when it raised). -/
def dlOk : Except String (DiskState × Bool) → Bool
  | .error _ => false
  | .ok (_, b) => b

/-- Observer: the disk state after `download` (the unchanged input state
when it raised, since the raise happens before any write). -/
def dlState (r : Except String (DiskState × Bool)) (fallback : DiskState) : DiskState :=
  match r with
  | .error _ => fallback
  | .ok (st, _) => st

/-- One page of `GET /list/:id/task`: the `tasks` array and the optional
`last_page` flag (`data.get("last_page", True)` treats an absent flag as
`True`). -/
structure PageResp (α : Type) where
  tasks : List α
  last_page : Option Bool
deriving DecidableEq

/-- The loop exit test of `iter_tasks`: `data.get("last_page", True)`. -/
def lastFlag {α : Type} (r : PageResp α) : Bool :=
  r.last_page.getD true

/-- Embeds the `while True` loop of `iter_tasks` (lines 137-145), started
at page `page` and cut off after `fuel` page requests (the source loop has
no bound of its own; every claim about it supposes the API reports a last
page). Returns the concatenated tasks together with the number of page
requests actually made. -/
def iter_tasks_from {α : Type} (api : Nat → PageResp α) : Nat → Nat → List α × Nat
  | 0, _ => ([], 0)
  | fuel + 1, page =>
      let data := api page
      if lastFlag data = true then (data.tasks, 1)
      else
        let r := iter_tasks_from api fuel (page + 1)
        (data.tasks ++ r.1, r.2 + 1)

/-- Embeds `iter_tasks` (lines 137-145): the page loop from page 0. -/
def iter_tasks {α : Type} (api : Nat → PageResp α) (fuel : Nat) : List α × Nat :=
  iter_tasks_from api fuel 0

/-- Concatenation of the `tasks` arrays of pages `p, p+1, ..., p+k-1`. -/
def segConcat {α : Type} (api : Nat → PageResp α) : Nat → Nat → List α
  | _, 0 => []
  | p, k + 1 => (api p).tasks ++ segConcat api (p + 1) k

/-- One attachment record of a task-detail response. `mimetype`, `title`
and `filename` are read with `att.get` (absent keys give `None`; the
mimetype read then applies the default `""`); `url` is read with
`att["url"]`, which raises `KeyError` when absent. -/
structure Att where
  mimetype : Option String
  title : Option String
  filename : Option String
  url : Option String
deriving DecidableEq

/-- Python `a or b` on the two optional filename strings: `None` and the
empty string are falsy, so `fname = att.get("title") or att.get("filename")`. -/
def pyOrStr : Option String → Option String → Option String
  | some s, b => if s = "" then b else some s
  | none, b => b

/-- Character-list test that `s` starts with `pre`. -/
def charsHasPfx : List Char → List Char → Bool
  | [], _ => true
  | _ :: _, [] => false
  | a :: as, b :: bs => a == b && charsHasPfx as bs

/-- Model of Python `s.startswith(pre)` (the library `String.startsWith`
is equivalent but not reducible by the kernel, so a character-list model
is used). -/
def strStartsWith (s pre : String) : Bool :=
  charsHasPfx pre.data s.data

/-- Destination path `OUT_DIR / sname / lname / fname`, kept relative to
the output root. -/
def destPath (sname lname fname : String) : String :=
  sname ++ "/" ++ lname ++ "/" ++ fname

/-- Trace events of the processing pass, used to state which API calls and
rate-limit sleeps a run performs. `attEval tid` marks one iteration of the
attachment loop of task `tid`; `sleepAtt` is the `time.sleep(RATE_DELAY)`
after a download attempt (line 259); `sleepTask` is the one at the end of
a task iteration (line 270). -/
inductive Event where
  | fetchDetail (tid : String) : Event
  | attEval (tid : String) : Event
  | downloadAttempt (url dest : String) : Event
  | skipDup (dest : String) : Event
  | sleepAtt : Event
  | sleepTask : Event
  | markProc (tid : String) : Event
deriving DecidableEq

/-- Result of a processing step: the disk state, the events it emitted in
order, the increments of the `total_imgs` and `failed_downloads` counters,
and whether the step ended in an exception still propagating (only
meaningful below the per-task boundary, which catches everything). -/
structure StepOut where
  disk : DiskState
  events : List Event
  imgs : Nat
  fails : Nat
  raised : Bool
deriving DecidableEq

/-- Outcome of an `api_get` call: the decoded body, or a raised exception. -/
inductive Outcome (α : Type) where
  | ok (v : α) : Outcome α
  | err (msg : String) : Outcome α
deriving DecidableEq

/-- Embeds one iteration of the attachment loop of `main` (lines 245-261).
In source order: the mimetype test; `fname = att.get("title") or
att.get("filename")` and the path join (a `None` fname raises `TypeError`
there); `att["url"]` (raises `KeyError` when absent); the duplicate check
— invoked with no expected size; otherwise `download`, counter update and
the attachment sleep, which runs whether the download succeeded or failed
but is absent from the duplicate-skip branch. -/
def process_attachment (net : String → NetResult) (st : DiskState)
    (sname lname tid : String) (att : Att) : StepOut :=
  if strStartsWith (att.mimetype.getD "") "image/" = true then
    match pyOrStr att.title att.filename with
    | none => ⟨st, [.attEval tid], 0, 0, true⟩
    | some fname =>
      match att.url with
      | none => ⟨st, [.attEval tid], 0, 0, true⟩
      | some u =>
        if is_duplicate st (destPath sname lname fname) u none = true then
          ⟨st, [.attEval tid, .skipDup (destPath sname lname fname)], 0, 0, false⟩
        else
          match download st (net u) u (destPath sname lname fname) with
          | .error _ => ⟨st, [.attEval tid], 0, 0, true⟩
          | .ok (st1, true) =>
              ⟨st1, [.attEval tid, .downloadAttempt u (destPath sname lname fname), .sleepAtt],
                1, 0, false⟩
          | .ok (st1, false) =>
              ⟨st1, [.attEval tid, .downloadAttempt u (destPath sname lname fname), .sleepAtt],
                0, 1, false⟩
  else ⟨st, [.attEval tid], 0, 0, false⟩

/-- The attachment loop over `tdata.get("attachments", [])`: stops at the
first attachment whose processing raises, keeping the state changes made
before the raise. -/
def process_atts (net : String → NetResult) (sname lname tid : String) :
    List Att → DiskState → StepOut
  | [], st => ⟨st, [], 0, 0, false⟩
  | a :: rest, st =>
      let r1 := process_attachment net st sname lname tid a
      if r1.raised = true then r1
      else
        let r2 := process_atts net sname lname tid rest r1.disk
        ⟨r2.disk, r1.events ++ r2.events, r1.imgs + r2.imgs, r1.fails + r2.fails, r2.raised⟩

/-- Embeds one iteration of the task loop of `main` (lines 242-270): the
`try` block fetches the task detail (`api_get`, which may raise), runs the
attachment loop, and on normal completion marks the task processed; the
`except Exception` clause catches any raise from inside the block and
`continue`s, skipping both the mark and the per-task sleep at line 270. -/
def process_task (detail : String → Outcome (List Att)) (net : String → NetResult)
    (sname lname : String) (st : DiskState) (tid : String) : StepOut :=
  match detail tid with
  | .err _ => ⟨st, [.fetchDetail tid], 0, 0, false⟩
  | .ok atts =>
      if (process_atts net sname lname tid atts st).raised = true then
        ⟨(process_atts net sname lname tid atts st).disk,
          .fetchDetail tid :: (process_atts net sname lname tid atts st).events,
          (process_atts net sname lname tid atts st).imgs,
          (process_atts net sname lname tid atts st).fails, false⟩
      else
        ⟨mark_task_processed (process_atts net sname lname tid atts st).disk tid,
          .fetchDetail tid :: (process_atts net sname lname tid atts st).events
            ++ [.markProc tid, .sleepTask],
          (process_atts net sname lname tid atts st).imgs,
          (process_atts net sname lname tid atts st).fails, false⟩

/-- The loop over the unprocessed tasks of one list. -/
def process_tasks (detail : String → Outcome (List Att)) (net : String → NetResult)
    (sname lname : String) : List String → DiskState → StepOut
  | [], st => ⟨st, [], 0, 0, false⟩
  | t :: ts, st =>
      let r1 := process_task detail net sname lname st t
      let r2 := process_tasks detail net sname lname ts r1.disk
      ⟨r2.disk, r1.events ++ r2.events, r1.imgs + r2.imgs, r1.fails + r2.fails, false⟩

/-- One (space name, list name, task ids) tuple of `all_lists`, as built by
the counting pass from the remote hierarchy. -/
structure Job where
  sname : String
  lname : String
  taskIds : List String
deriving DecidableEq

/-- The loop over `all_lists` (lines 227-270): each list is reduced to the
tasks whose id is not in the processed set loaded at run start (line 177,
used at line 229); an empty remainder is skipped, which changes nothing. -/
def run_go (detail : String → Outcome (List Att)) (net : String → NetResult)
    (processed : List String) : List Job → DiskState → StepOut
  | [], st => ⟨st, [], 0, 0, false⟩
  | j :: js, st =>
      let remaining := j.taskIds.filter (fun t => decide (t ∉ processed))
      let r1 := process_tasks detail net j.sname j.lname remaining st
      let r2 := run_go detail net processed js r1.disk
      ⟨r2.disk, r1.events ++ r2.events, r1.imgs + r2.imgs, r1.fails + r2.fails, false⟩

/-- Embeds the processing pass of `main` (lines 172-272): load the
processed-task set once at start, then process every list's remaining
tasks. The purely cosmetic parts of `main` (console rendering, the
counting pass, the progress bars) read but never write the modelled state;
`all_lists` is the `jobs` argument, a pure function of the remote
hierarchy. -/
def run (detail : String → Outcome (List Att)) (net : String → NetResult)
    (jobs : List Job) (disk : DiskState) : StepOut :=
  run_go detail net (load_processed_tasks disk.processedFile) jobs disk

/-- Remote hierarchy of the two-run scenario: one space, one list, one task. -/
def twoRunJobs : List Job := [⟨"S", "L", ["t1"]⟩]

/-- Task detail of the two-run scenario: a first image attachment whose
download will fail, then an image attachment with no `url` key, whose
access raises `KeyError` and aborts the task. -/
def twoRunDetail : String → Outcome (List Att) :=
  fun _ => .ok [⟨some "image/png", some "f1", none, some "u1"⟩,
                ⟨some "image/png", some "f2", none, none⟩]

/-- Network of the two-run scenario: every download raises a
`RequestException` before the output file is opened. -/
def twoRunNet : String → NetResult := fun _ => .fail none "boom"

/-- A fresh output directory: no files, no ledger files. -/
def emptyDisk : DiskState := ⟨[], .missing, .missing, .missing, 0⟩

/-- Looking up the key just set returns the value just set. -/
theorem assocGet_assocSet_self {α : Type} (m : List (String × α)) (k : String) (v : α) :
    assocGet (assocSet m k v) k = some v := by
  induction m with
  | nil => simp [assocSet, assocGet]
  | cons hd tl ih =>
      obtain ⟨k', v'⟩ := hd
      by_cases h : k' = k
      · simp [assocSet, assocGet, h]
      · simp [assocSet, assocGet, h, ih]

/-- Deleting a key makes it absent. -/
theorem assocGet_assocDel_self {α : Type} (m : List (String × α)) (k : String) :
    assocGet (assocDel m k) k = none := by
  induction m with
  | nil => simp [assocDel, assocGet]
  | cons hd tl ih =>
      obtain ⟨k', v'⟩ := hd
      by_cases h : k' = k
      · simp [assocDel, h, ih]
      · simp [assocDel, assocGet, h, ih]

/-- Characterization of `is_duplicate`, read off line by line from the
source: the file exists, the truthy-expected-size guard passes, and the
metadata record for the path matches the url and the on-disk size. -/
theorem is_duplicate_iff (st : DiskState) (p u : String) (e : Option Nat) :
    is_duplicate st p u e = true ↔
      fileExists st p = true ∧
      (truthyNat e = true → fileSize st p = e) ∧
      ∃ r, assocGet (load_metadata st.metadataFile) p = some r ∧
        r.url = u ∧ some r.size = fileSize st p := by
  unfold is_duplicate
  by_cases hf : fileExists st p = true
  case neg =>
    rw [if_pos (by simpa using hf)]
    simp [hf]
  case pos =>
    rw [if_neg (by simp [hf])]
    by_cases hguard : truthyNat e = true ∧ fileSize st p ≠ e
    · rw [if_pos hguard]
      constructor
      · intro h
        exact absurd h (by simp)
      · rintro ⟨-, himp, -⟩
        exact absurd (himp hguard.1) hguard.2
    · rw [if_neg hguard]
      cases hm : assocGet (load_metadata st.metadataFile) p with
      | none =>
          simp
      | some r =>
          change (if r.url = u ∧ fileExists st p = true ∧ some r.size = fileSize st p
            then true else false) = true ↔ _
          by_cases hcond : r.url = u ∧ fileExists st p = true ∧ some r.size = fileSize st p
          · rw [if_pos hcond]
            constructor
            · intro _
              refine ⟨hf, ?_, r, rfl, hcond.1, hcond.2.2⟩
              intro htruthy
              by_contra hne
              exact hguard ⟨htruthy, hne⟩
            · intro _
              rfl
          · rw [if_neg hcond]
            constructor
            · intro h
              exact absurd h (by simp)
            · rintro ⟨-, -, r', hr', hurl, hsize⟩
              injection hr' with hrr
              subst hrr
              exact absurd ⟨hurl, hf, hsize⟩ hcond

/-- C7: for each of the three ledger stores, loading a file whose JSON is
invalid (or whose read raises `IOError`) gives the same empty default as
loading a missing file; both loaders are total functions of the file
state, so no error reaches the caller. -/
theorem C7_corrupt_ledger_resilience :
    load_metadata .corrupt = load_metadata .missing ∧
    load_metadata .missing = ([] : List (String × MetaRecord)) ∧
    load_failed_downloads .corrupt = load_failed_downloads .missing ∧
    load_failed_downloads .missing = ([] : List FailedRecord) ∧
    load_processed_tasks .corrupt = load_processed_tasks .missing ∧
    load_processed_tasks .missing = ([] : List String) :=
  ⟨rfl, rfl, rfl, rfl, rfl, rfl⟩

/-- Reduction of `process_attachment` for an image attachment with a
usable filename and url whose path passes the duplicate check: the
attachment is skipped, the state unchanged, and no sleep happens. -/
theorem process_attachment_dup (net : String → NetResult) (st : DiskState)
    (sname lname tid : String) (att : Att) (fname uu : String)
    (hmime : strStartsWith (att.mimetype.getD "") "image/" = true)
    (hfname : pyOrStr att.title att.filename = some fname)
    (hurl : att.url = some uu)
    (hdup : is_duplicate st (destPath sname lname fname) uu none = true) :
    process_attachment net st sname lname tid att
      = ⟨st, [.attEval tid, .skipDup (destPath sname lname fname)], 0, 0, false⟩ := by
  unfold process_attachment
  rw [if_pos hmime, hfname, hurl]
  simp [hdup]

/-- Reduction of `process_attachment` for an image attachment with a
usable filename and url whose path fails the duplicate check: the outcome
is that of `download`, and the attachment sleep follows the attempt. -/
theorem process_attachment_not_dup (net : String → NetResult) (st : DiskState)
    (sname lname tid : String) (att : Att) (fname uu : String)
    (hmime : strStartsWith (att.mimetype.getD "") "image/" = true)
    (hfname : pyOrStr att.title att.filename = some fname)
    (hurl : att.url = some uu)
    (hdup : is_duplicate st (destPath sname lname fname) uu none = false) :
    process_attachment net st sname lname tid att
      = match download st (net uu) uu (destPath sname lname fname) with
        | .error _ => ⟨st, [.attEval tid], 0, 0, true⟩
        | .ok (st1, true) =>
            ⟨st1, [.attEval tid, .downloadAttempt uu (destPath sname lname fname), .sleepAtt],
              1, 0, false⟩
        | .ok (st1, false) =>
            ⟨st1, [.attEval tid, .downloadAttempt uu (destPath sname lname fname), .sleepAtt],
              0, 1, false⟩ := by
  unfold process_attachment
  rw [if_pos hmime, hfname, hurl]
  simp [hdup]

/-- Reduction of `process_attachment` for a non-image attachment: the
mimetype test fails, nothing happens beyond the loop iteration. -/
theorem process_attachment_not_image (net : String → NetResult) (st : DiskState)
    (sname lname tid : String) (att : Att)
    (hmime : strStartsWith (att.mimetype.getD "") "image/" = false) :
    process_attachment net st sname lname tid att = ⟨st, [.attEval tid], 0, 0, false⟩ := by
  unfold process_attachment
  rw [if_neg (by simp [hmime])]

/-- C1 counterexample: with a file of size 5 at "p" and a metadata record
storing url "u" and size 5, the query `is_duplicate("p", "u", 0)` passes
an expected size (0) that differs from the on-disk size (5), yet returns
true — Python's `if expected_size and ...` skips the comparison for 0. -/
theorem C1_counterexample :
    is_duplicate ⟨[("p", 5)], .valid [("p", ⟨"u", 5, 0⟩)], .missing, .missing, 1⟩
      "p" "u" (some 0) = true ∧
    fileSize ⟨[("p", 5)], .valid [("p", ⟨"u", 5, 0⟩)], .missing, .missing, 1⟩ "p" = some 5 ∧
    (0 : Nat) ≠ 5 := by
  decide

/-- C1 (amended): after `record_download(P, U, S)` with the file at P
present with size S, `isDuplicate(P, U, S)` is true; changing U, changing
S to a nonzero size that differs from the on-disk size, or deleting the
file each independently make it false; and in general
`isDuplicate(path, url, expectedSize?)` is true exactly when the file
exists, the expected size — when given and nonzero — matches the actual
size, and a metadata record for the path stores the same URL and a size
equal to the current on-disk size. (The amendment: an expected size of
zero is falsy in the source's guard, so it is treated as absent.) -/
theorem C1_duplicate_detection (base : DiskState) (p u : String) (s : Nat)
    (hfile : fileSize (record_download base p u s) p = some s) :
    is_duplicate (record_download base p u s) p u (some s) = true ∧
    (∀ u', u' ≠ u → is_duplicate (record_download base p u s) p u' (some s) = false) ∧
    (∀ s', s' ≠ 0 → some s' ≠ fileSize (record_download base p u s) p →
      is_duplicate (record_download base p u s) p u (some s') = false) ∧
    is_duplicate (deleteFile (record_download base p u s) p) p u (some s) = false ∧
    (∀ st' p' u' e', is_duplicate st' p' u' e' = true ↔
      fileExists st' p' = true ∧
      (truthyNat e' = true → fileSize st' p' = e') ∧
      ∃ r, assocGet (load_metadata st'.metadataFile) p' = some r ∧
        r.url = u' ∧ some r.size = fileSize st' p') := by
  have hget : assocGet (load_metadata (record_download base p u s).metadataFile) p
      = some ⟨u, s, base.clock⟩ := by
    show assocGet (assocSet (load_metadata base.metadataFile) p ⟨u, s, base.clock⟩) p = _
    exact assocGet_assocSet_self _ _ _
  have hex : fileExists (record_download base p u s) p = true := by
    unfold fileExists
    unfold fileSize at hfile
    rw [hfile]
    rfl
  refine ⟨?_, ?_, ?_, ?_, is_duplicate_iff⟩
  · exact (is_duplicate_iff _ p u (some s)).mpr
      ⟨hex, fun _ => hfile, ⟨u, s, base.clock⟩, hget, rfl, hfile.symm⟩
  · intro u' hu'
    rcases hd : is_duplicate (record_download base p u s) p u' (some s) with _ | _
    · rfl
    · obtain ⟨-, -, r, hr, hurl, -⟩ := (is_duplicate_iff _ p u' (some s)).mp hd
      rw [hget] at hr
      injection hr with hrr
      subst hrr
      exact absurd hurl.symm hu'
  · intro s' hs0 hne
    rcases hd : is_duplicate (record_download base p u s) p u (some s') with _ | _
    · rfl
    · obtain ⟨-, himp, -⟩ := (is_duplicate_iff _ p u (some s')).mp hd
      have : fileSize (record_download base p u s) p = some s' := by
        apply himp
        simp [truthyNat, hs0]
      exact absurd this.symm hne
  · rcases hd : is_duplicate (deleteFile (record_download base p u s) p) p u (some s) with _ | _
    · rfl
    · obtain ⟨hex', -, -⟩ := (is_duplicate_iff _ p u (some s)).mp hd
      have : fileExists (deleteFile (record_download base p u s) p) p = false := by
        unfold fileExists deleteFile
        simp [assocGet_assocDel_self]
      rw [this] at hex'
      exact absurd hex' (by simp)

/-- C1 witness: the amended theorem applied at a concrete state — a file
of size 5 at "S/L/f" whose download from "u" was just recorded. -/
theorem C1_witness :
    is_duplicate (record_download ⟨[("S/L/f", 5)], .missing, .missing, .missing, 0⟩
      "S/L/f" "u" 5) "S/L/f" "u" (some 5) = true ∧
    is_duplicate (record_download ⟨[("S/L/f", 5)], .missing, .missing, .missing, 0⟩
      "S/L/f" "u" 5) "S/L/f" "v" (some 5) = false :=
  ⟨(C1_duplicate_detection ⟨[("S/L/f", 5)], .missing, .missing, .missing, 0⟩
      "S/L/f" "u" 5 (by decide)).1,
   (C1_duplicate_detection ⟨[("S/L/f", 5)], .missing, .missing, .missing, 0⟩
      "S/L/f" "u" 5 (by decide)).2.1 "v" (by decide)⟩

/-- C10: `is_duplicate` treats an expected size of 0 exactly like an
absent expected size (the truthiness guard skips the comparison for
both); with no expected size the decision is exactly file existence plus
a metadata record with matching URL and with stored size equal to the
on-disk size; and the attachment loop of `main` invokes the duplicate
check with no expected size — an image attachment with a usable filename
and url is skipped if and only if that very check returns true. -/
theorem C10_zero_expected_size (st : DiskState) (p u : String) :
    is_duplicate st p u (some 0) = is_duplicate st p u none ∧
    (is_duplicate st p u none = true ↔
      fileExists st p = true ∧
      ∃ r, assocGet (load_metadata st.metadataFile) p = some r ∧
        r.url = u ∧ some r.size = fileSize st p) ∧
    (∀ (net : String → NetResult) (sname lname tid : String) (att : Att) (fname uu : String),
      pyOrStr att.title att.filename = some fname →
      att.url = some uu →
      strStartsWith (att.mimetype.getD "") "image/" = true →
      ((process_attachment net st sname lname tid att).events
          = [.attEval tid, .skipDup (destPath sname lname fname)]
        ↔ is_duplicate st (destPath sname lname fname) uu none = true)) := by
  refine ⟨?_, ?_, ?_⟩
  · simp [is_duplicate, truthyNat]
  · have h := is_duplicate_iff st p u none
    simpa [truthyNat] using h
  · intro net sname lname tid att fname uu hfname hurl hmime
    constructor
    · intro hev
      cases hdup : is_duplicate st (destPath sname lname fname) uu none with
      | true => rfl
      | false =>
          exfalso
          rw [process_attachment_not_dup net st sname lname tid att fname uu
            hmime hfname hurl hdup] at hev
          rcases hdl : download st (net uu) uu (destPath sname lname fname) with e | ⟨st1, b⟩
          · rw [hdl] at hev
            simp at hev
          · rw [hdl] at hev
            rcases b with _ | _
            · simp at hev
            · simp at hev
    · intro hdup
      rw [process_attachment_dup net st sname lname tid att fname uu hmime hfname hurl hdup]

/-- C10 witness: the equivalence evaluated at a concrete state holding a
recorded file, for both the zero-expected-size equality and the pipeline
skip decision. -/
theorem C10_witness :
    is_duplicate ⟨[("p", 5)], .valid [("p", ⟨"u", 5, 0⟩)], .missing, .missing, 1⟩
      "p" "u" (some 0)
      = is_duplicate ⟨[("p", 5)], .valid [("p", ⟨"u", 5, 0⟩)], .missing, .missing, 1⟩
        "p" "u" none ∧
    ((process_attachment (fun _ => .fail none "x")
        ⟨[("S/L/f", 5)], .valid [("S/L/f", ⟨"u", 5, 0⟩)], .missing, .missing, 1⟩
        "S" "L" "t" ⟨some "image/png", some "f", none, some "u"⟩).events
        = [.attEval "t", .skipDup (destPath "S" "L" "f")]
      ↔ is_duplicate ⟨[("S/L/f", 5)], .valid [("S/L/f", ⟨"u", 5, 0⟩)], .missing, .missing, 1⟩
          (destPath "S" "L" "f") "u" none = true) :=
  ⟨(C10_zero_expected_size
      ⟨[("p", 5)], .valid [("p", ⟨"u", 5, 0⟩)], .missing, .missing, 1⟩ "p" "u").1,
   (C10_zero_expected_size
      ⟨[("S/L/f", 5)], .valid [("S/L/f", ⟨"u", 5, 0⟩)], .missing, .missing, 1⟩ "p" "u").2.2
      (fun _ => .fail none "x") "S" "L" "t" ⟨some "image/png", some "f", none, some "u"⟩
      "f" "u" (by decide) (by decide) (by decide)⟩

/-- Page-loop lemma: if the first last-page flag above `p` appears at page
`p + m`, the loop started at `p` with at least `m + 1` fuel makes exactly
`m + 1` page requests and returns the pages' tasks concatenated in order. -/
theorem iter_tasks_from_spec {α : Type} (api : Nat → PageResp α) (m : Nat) :
    ∀ p fuel : Nat, m + 1 ≤ fuel →
    (∀ j, j < m → lastFlag (api (p + j)) = false) →
    lastFlag (api (p + m)) = true →
    iter_tasks_from api fuel p = (segConcat api p (m + 1), m + 1) := by
  induction m with
  | zero =>
      intro p fuel hfuel hmid hlast
      obtain ⟨f, rfl⟩ : ∃ f, fuel = f + 1 := ⟨fuel - 1, by omega⟩
      rw [Nat.add_zero] at hlast
      simp [iter_tasks_from, hlast, segConcat]
  | succ m ih =>
      intro p fuel hfuel hmid hlast
      obtain ⟨f, rfl⟩ : ∃ f, fuel = f + 1 := ⟨fuel - 1, by omega⟩
      have h0 : lastFlag (api p) = false := by
        have h := hmid 0 (by omega)
        rwa [Nat.add_zero] at h
      have hrec := ih (p + 1) f (by omega)
        (fun j hj => by
          have h := hmid (j + 1) (by omega)
          have e : p + (j + 1) = p + 1 + j := by omega
          rwa [e] at h)
        (by
          have e : p + 1 + m = p + (m + 1) := by omega
          rw [e]
          exact hlast)
      simp [iter_tasks_from, h0, hrec, segConcat]

/-- C6: when the API reports the last page on the Nth request (either the
`last_page` flag true, or the flag absent, which `data.get("last_page",
True)` also treats as last) and not before, `iter_tasks` stops after
exactly N page requests and yields exactly the concatenation of the tasks
of pages 0 through N-1, in order — no page duplicated, none omitted. -/
theorem C6_pagination_termination {α : Type} (api : Nat → PageResp α) (N fuel : Nat)
    (hN : 0 < N) (hfuel : N ≤ fuel)
    (hmid : ∀ i, i < N - 1 → lastFlag (api i) = false)
    (hlast : lastFlag (api (N - 1)) = true) :
    iter_tasks api fuel = (segConcat api 0 N, N) := by
  obtain ⟨m, rfl⟩ : ∃ m, N = m + 1 := ⟨N - 1, by omega⟩
  unfold iter_tasks
  have hm : m + 1 - 1 = m := by omega
  rw [hm] at hmid hlast
  exact iter_tasks_from_spec api m 0 fuel (by omega)
    (fun j hj => by
      have h := hmid j hj
      have e : (0 : Nat) + j = j := by omega
      rw [e]
      exact h)
    (by
      have e : (0 : Nat) + m = m := by omega
      rw [e]
      exact hlast)

/-- C6 witness: a two-page list (the flag false on page 0, true on page 1)
yields the three tasks in order with exactly two page requests. -/
theorem C6_witness :
    iter_tasks (fun i => if i = 0 then (⟨[1, 2], some false⟩ : PageResp Nat) else ⟨[3], some true⟩) 5
      = (segConcat (fun i => if i = 0 then (⟨[1, 2], some false⟩ : PageResp Nat) else ⟨[3], some true⟩) 0 2, 2) :=
  C6_pagination_termination
    (fun i => if i = 0 then (⟨[1, 2], some false⟩ : PageResp Nat) else ⟨[3], some true⟩)
    2 5 (by decide) (by decide) (by decide) (by decide)

/-- A well-formed content-length header (absent, empty, or parseable)
does not trip the `int()` raise condition in `download`. -/
theorem header_no_raise (cl : Option String)
    (hcl : truthyStr cl = false ∨ (pyInt (cl.getD "")).isSome = true) :
    ¬(truthyStr cl = true ∧ pyInt (cl.getD "") = none) := by
  rcases hcl with h | h
  · rintro ⟨h1, -⟩
    rw [h] at h1
    exact absurd h1 (by simp)
  · rintro ⟨-, h2⟩
    rw [h2] at h
    exact absurd h (by simp)

/-- C5 (amended): on any failed network request or HTTP response,
`download` appends exactly one record to the failed-download log, leaves
no file at `dest` (a partial write, and even a pre-existing file, is
unlinked), touches neither of the other two ledgers, and returns false
without raising. No network or HTTP failure ever raises past `download`;
the only raise `download` can produce at all is the `ValueError` of
`int(content_length)` on a successful response carrying a non-empty
header that is not an integer — a `RequestException` it never is.
(The amendment: the claim's "never lets an exception propagate past its
boundary, for any input" must except that malformed-header case.) -/
theorem C5_failure_boundary (st : DiskState) (url dest msg : String) (w : Option Nat) :
    dlRaised (download st (.fail w msg) url dest) = false ∧
    dlOk (download st (.fail w msg) url dest) = false ∧
    load_failed_downloads (dlState (download st (.fail w msg) url dest) st).failedFile
      = load_failed_downloads st.failedFile ++ [⟨url, dest, msg, st.clock⟩] ∧
    fileExists (dlState (download st (.fail w msg) url dest) st) dest = false ∧
    (dlState (download st (.fail w msg) url dest) st).metadataFile = st.metadataFile ∧
    (dlState (download st (.fail w msg) url dest) st).processedFile = st.processedFile ∧
    (∀ r : NetResult, dlRaised (download st r url dest) = true →
      ∃ s bytes, r = NetResult.ok (some s) bytes ∧ s ≠ "" ∧ pyInt s = none) := by
  have branch : ∀ st1 : DiskState, st1.failedFile = st.failedFile → st1.clock = st.clock →
      st1.metadataFile = st.metadataFile → st1.processedFile = st.processedFile →
      load_failed_downloads
          (if fileExists (log_failed_download st1 url dest msg) dest = true
            then deleteFile (log_failed_download st1 url dest msg) dest
            else log_failed_download st1 url dest msg).failedFile
        = load_failed_downloads st.failedFile ++ [⟨url, dest, msg, st.clock⟩] ∧
      fileExists
          (if fileExists (log_failed_download st1 url dest msg) dest = true
            then deleteFile (log_failed_download st1 url dest msg) dest
            else log_failed_download st1 url dest msg) dest = false ∧
      (if fileExists (log_failed_download st1 url dest msg) dest = true
            then deleteFile (log_failed_download st1 url dest msg) dest
            else log_failed_download st1 url dest msg).metadataFile = st.metadataFile ∧
      (if fileExists (log_failed_download st1 url dest msg) dest = true
            then deleteFile (log_failed_download st1 url dest msg) dest
            else log_failed_download st1 url dest msg).processedFile = st.processedFile := by
    intro st1 hf hc hm hp
    by_cases h : fileExists (log_failed_download st1 url dest msg) dest = true
    · simp only [if_pos h]
      refine ⟨?_, ?_, ?_, ?_⟩
      · show load_failed_downloads st1.failedFile ++ [⟨url, dest, msg, st1.clock⟩] = _
        rw [hf, hc]
      · show (assocGet (assocDel (log_failed_download st1 url dest msg).files dest) dest).isSome
          = false
        rw [assocGet_assocDel_self]
        rfl
      · exact hm
      · exact hp
    · simp only [if_neg h]
      refine ⟨?_, ?_, ?_, ?_⟩
      · show load_failed_downloads st1.failedFile ++ [⟨url, dest, msg, st1.clock⟩] = _
        rw [hf, hc]
      · simpa using h
      · exact hm
      · exact hp
  refine ⟨?_, ?_, ?_, ?_, ?_, ?_, ?_⟩
  · cases w <;> rfl
  · cases w <;> rfl
  · cases w with
    | none => exact (branch st rfl rfl rfl rfl).1
    | some n => exact (branch (writeFile st dest n) rfl rfl rfl rfl).1
  · cases w with
    | none => exact (branch st rfl rfl rfl rfl).2.1
    | some n => exact (branch (writeFile st dest n) rfl rfl rfl rfl).2.1
  · cases w with
    | none => exact (branch st rfl rfl rfl rfl).2.2.1
    | some n => exact (branch (writeFile st dest n) rfl rfl rfl rfl).2.2.1
  · cases w with
    | none => exact (branch st rfl rfl rfl rfl).2.2.2
    | some n => exact (branch (writeFile st dest n) rfl rfl rfl rfl).2.2.2
  · intro r hr
    cases r with
    | ok cl bytes =>
        by_cases hc : truthyStr cl = true ∧ pyInt (cl.getD "") = none
        · rcases cl with _ | s
          · exact absurd hc.1 (by simp [truthyStr])
          · exact ⟨s, bytes, rfl, by simpa [truthyStr] using hc.1, by simpa using hc.2⟩
        · simp only [download] at hr
          rw [if_neg hc] at hr
          exact absurd hr (by simp [dlRaised])
    | fail w' m' =>
        cases w' <;> exact absurd hr (by simp [download, dlRaised])

/-- C5 witness: the failure branch evaluated on a concrete failed request
with a partial file, and the raise characterization applied to a concrete
malformed content-length header. -/
theorem C5_witness :
    dlOk (download ⟨[("d", 3)], .missing, .missing, .missing, 0⟩ (.fail (some 3) "timeout") "u" "d") = false ∧
    fileExists (dlState (download ⟨[("d", 3)], .missing, .missing, .missing, 0⟩
      (.fail (some 3) "timeout") "u" "d") ⟨[("d", 3)], .missing, .missing, .missing, 0⟩) "d" = false ∧
    ∃ s bytes, NetResult.ok (some "junk") 7 = NetResult.ok (some s) bytes ∧ s ≠ "" ∧ pyInt s = none :=
  ⟨(C5_failure_boundary ⟨[("d", 3)], .missing, .missing, .missing, 0⟩ "u" "d" "timeout" (some 3)).2.1,
   (C5_failure_boundary ⟨[("d", 3)], .missing, .missing, .missing, 0⟩ "u" "d" "timeout" (some 3)).2.2.2.1,
   (C5_failure_boundary ⟨[("d", 3)], .missing, .missing, .missing, 0⟩ "u" "d" "timeout" (some 3)).2.2.2.2.2.2
     (.ok (some "junk") 7) (by decide)⟩

/-- C5 counterexample: `download` is not exception-free for every input —
a successful response whose content-length header is the non-numeric
string "junk" makes `int(content_length)` raise a `ValueError`, which the
`except requests.exceptions.RequestException` clause does not catch. -/
theorem C5_counterexample :
    dlRaised (download ⟨[], .missing, .missing, .missing, 0⟩ (.ok (some "junk") 5) "u" "d") = true := by
  decide

/-- C8 counterexample: the response header advertises 100 bytes but only
50 reach the disk; `download` still returns success, and the metadata
record stores 50 — no comparison of the actual byte size with the
expected size from the response ever happens (the parsed `expected_size`
is a dead variable in the source). -/
theorem C8_counterexample :
    dlOk (download ⟨[], .missing, .missing, .missing, 0⟩ (.ok (some "100") 50) "u" "d") = true ∧
    fileSize (dlState (download ⟨[], .missing, .missing, .missing, 0⟩ (.ok (some "100") 50) "u" "d")
      ⟨[], .missing, .missing, .missing, 0⟩) "d" = some 50 ∧
    assocGet (load_metadata (dlState (download ⟨[], .missing, .missing, .missing, 0⟩
      (.ok (some "100") 50) "u" "d") ⟨[], .missing, .missing, .missing, 0⟩).metadataFile) "d"
      = some ⟨"u", 50, 0⟩ ∧
    pyInt "100" = some 100 ∧ (100 : Nat) ≠ 50 := by
  decide

/-- C8 (amended): after streaming the body to disk, the engine re-stats
the written file and records that actual byte size (under the destination
key, with the url) before returning success; the header-advertised
expected size is parsed but never compared — the outcome of a successful
response is the same for any well-formed content-length header, and
success is reported regardless of whether the actual size matches the
advertised one. -/
theorem C8_size_recorded_not_verified (st : DiskState) (url dest : String)
    (cl : Option String) (bytes : Nat)
    (hcl : truthyStr cl = false ∨ (pyInt (cl.getD "")).isSome = true) :
    dlRaised (download st (.ok cl bytes) url dest) = false ∧
    dlOk (download st (.ok cl bytes) url dest) = true ∧
    fileSize (dlState (download st (.ok cl bytes) url dest) st) dest = some bytes ∧
    assocGet (load_metadata (dlState (download st (.ok cl bytes) url dest) st).metadataFile) dest
      = some ⟨url, bytes, st.clock⟩ ∧
    (∀ cl', truthyStr cl' = false ∨ (pyInt (cl'.getD "")).isSome = true →
      download st (.ok cl bytes) url dest = download st (.ok cl' bytes) url dest) := by
  have hnc := header_no_raise cl hcl
  have hact : fileSize (writeFile st dest bytes) dest = some bytes := by
    unfold fileSize writeFile
    exact assocGet_assocSet_self _ _ _
  have hred : download st (.ok cl bytes) url dest
      = .ok (record_download (writeFile st dest bytes) dest url
          ((fileSize (writeFile st dest bytes) dest).getD 0), true) := by
    simp only [download]
    rw [if_neg hnc]
  rw [hact] at hred
  rw [Option.getD_some] at hred
  refine ⟨?_, ?_, ?_, ?_, ?_⟩
  · rw [hred]
    rfl
  · rw [hred]
    rfl
  · rw [hred]
    exact hact
  · rw [hred]
    show assocGet (assocSet (load_metadata st.metadataFile) dest ⟨url, bytes, st.clock⟩) dest = _
    exact assocGet_assocSet_self _ _ _
  · intro cl' hcl'
    have hnc' := header_no_raise cl' hcl'
    simp only [download]
    rw [if_neg hnc, if_neg hnc']

/-- C8 witness: the amended theorem applied with an absent content-length
header, the streamed body writing 50 bytes. -/
theorem C8_witness :
    dlOk (download ⟨[], .missing, .missing, .missing, 0⟩ (.ok none 50) "u" "d") = true ∧
    fileSize (dlState (download ⟨[], .missing, .missing, .missing, 0⟩ (.ok none 50) "u" "d")
      ⟨[], .missing, .missing, .missing, 0⟩) "d" = some 50 :=
  ⟨(C8_size_recorded_not_verified ⟨[], .missing, .missing, .missing, 0⟩ "u" "d" none 50
      (Or.inl (by decide))).2.1,
   (C8_size_recorded_not_verified ⟨[], .missing, .missing, .missing, 0⟩ "u" "d" none 50
      (Or.inl (by decide))).2.2.1⟩

/-- `download` never touches the processed-task ledger. -/
theorem dlState_processedFile (st : DiskState) (net : NetResult) (url dest : String) :
    (dlState (download st net url dest) st).processedFile = st.processedFile := by
  cases net with
  | ok cl bytes =>
      by_cases hc : truthyStr cl = true ∧ pyInt (cl.getD "") = none
      · simp only [download]
        rw [if_pos hc]
        rfl
      · simp only [download]
        rw [if_neg hc]
        rfl
  | fail w msg =>
      cases w with
      | none =>
          show (if fileExists (log_failed_download st url dest msg) dest = true
            then deleteFile (log_failed_download st url dest msg) dest
            else log_failed_download st url dest msg).processedFile = st.processedFile
          split <;> rfl
      | some n =>
          show (if fileExists (log_failed_download (writeFile st dest n) url dest msg) dest = true
            then deleteFile (log_failed_download (writeFile st dest n) url dest msg) dest
            else log_failed_download (writeFile st dest n) url dest msg).processedFile
            = st.processedFile
          split <;> rfl

/-- A `download` that returns leaves the processed-task ledger unchanged. -/
theorem download_ok_processedFile (st st1 : DiskState) (net : NetResult)
    (url dest : String) (b : Bool) (h : download st net url dest = .ok (st1, b)) :
    st1.processedFile = st.processedFile := by
  have hd := dlState_processedFile st net url dest
  rw [h] at hd
  exact hd

/-- One attachment iteration never touches the processed-task ledger. -/
theorem process_attachment_processedFile (net : String → NetResult) (st : DiskState)
    (sname lname tid : String) (att : Att) :
    (process_attachment net st sname lname tid att).disk.processedFile = st.processedFile := by
  unfold process_attachment
  split
  · split
    · rfl
    · split
      · rfl
      · split
        · rfl
        · split
          · rfl
          · rename_i st1 heq
            exact download_ok_processedFile _ _ _ _ _ _ heq
          · rename_i st1 heq
            exact download_ok_processedFile _ _ _ _ _ _ heq
  · rfl

/-- The attachment loop never touches the processed-task ledger. -/
theorem process_atts_processedFile (net : String → NetResult) (sname lname tid : String)
    (atts : List Att) : ∀ st : DiskState,
    (process_atts net sname lname tid atts st).disk.processedFile = st.processedFile := by
  induction atts with
  | nil => intro st; rfl
  | cons a rest ih =>
      intro st
      simp only [process_atts]
      split
      · exact process_attachment_processedFile net st sname lname tid a
      · show (process_atts net sname lname tid rest
          (process_attachment net st sname lname tid a).disk).disk.processedFile = _
        rw [ih, process_attachment_processedFile]

/-- Inserting into the processed set keeps the existing members. -/
theorem mem_setInsert_of_mem (s : List String) (x y : String) (h : y ∈ s) :
    y ∈ setInsert s x := by
  unfold setInsert
  split
  · exact h
  · exact List.mem_append_left _ h

/-- Inserting into the processed set makes the new id a member. -/
theorem mem_setInsert_self (s : List String) (x : String) : x ∈ setInsert s x := by
  unfold setInsert
  split
  · assumption
  · exact List.mem_append_right _ (by simp)

/-- Events of one attachment iteration: no detail fetch, loop-iteration
events only for this task, and never the per-task sleep. -/
theorem process_attachment_events_facts (net : String → NetResult) (st : DiskState)
    (sname lname tid : String) (att : Att) (s : String) :
    Event.fetchDetail s ∉ (process_attachment net st sname lname tid att).events ∧
    (Event.attEval s ∈ (process_attachment net st sname lname tid att).events → s = tid) ∧
    Event.sleepTask ∉ (process_attachment net st sname lname tid att).events := by
  unfold process_attachment
  split
  · split
    · exact ⟨by simp, by simp, by simp⟩
    · split
      · exact ⟨by simp, by simp, by simp⟩
      · split
        · exact ⟨by simp, by simp, by simp⟩
        · split
          · exact ⟨by simp, by simp, by simp⟩
          · exact ⟨by simp, by simp, by simp⟩
          · exact ⟨by simp, by simp, by simp⟩
  · exact ⟨by simp, by simp, by simp⟩

/-- Events of the attachment loop: no detail fetch, loop-iteration events
only for this task, and never the per-task sleep. -/
theorem process_atts_events_facts (net : String → NetResult) (sname lname tid : String)
    (atts : List Att) : ∀ (st : DiskState) (s : String),
    Event.fetchDetail s ∉ (process_atts net sname lname tid atts st).events ∧
    (Event.attEval s ∈ (process_atts net sname lname tid atts st).events → s = tid) ∧
    Event.sleepTask ∉ (process_atts net sname lname tid atts st).events := by
  induction atts with
  | nil =>
      intro st s
      exact ⟨by simp [process_atts], by simp [process_atts], by simp [process_atts]⟩
  | cons a rest ih =>
      intro st s
      have ha := process_attachment_events_facts net st sname lname tid a s
      simp only [process_atts]
      split
      · exact ha
      · have hr := ih (process_attachment net st sname lname tid a).disk s
        refine ⟨?_, ?_, ?_⟩
        · intro h
          rcases List.mem_append.mp h with h | h
          · exact ha.1 h
          · exact hr.1 h
        · intro h
          rcases List.mem_append.mp h with h | h
          · exact ha.2.1 h
          · exact hr.2.1 h
        · intro h
          rcases List.mem_append.mp h with h | h
          · exact ha.2.2 h
          · exact hr.2.2 h

/-- Events of one task iteration carry only this task's id. -/
theorem process_task_events_facts (detail : String → Outcome (List Att))
    (net : String → NetResult) (sname lname : String) (st : DiskState) (tid s : String) :
    (Event.fetchDetail s ∈ (process_task detail net sname lname st tid).events → s = tid) ∧
    (Event.attEval s ∈ (process_task detail net sname lname st tid).events → s = tid) := by
  unfold process_task
  split
  · exact ⟨by simp, by simp⟩
  · rename_i atts heq
    have hf := process_atts_events_facts net sname lname tid atts st s
    split
    · refine ⟨?_, ?_⟩
      · intro h
        rcases List.mem_cons.mp h with h | h
        · simpa using h
        · exact absurd h hf.1
      · intro h
        rcases List.mem_cons.mp h with h | h
        · exact absurd h (by simp)
        · exact hf.2.1 h
    · refine ⟨?_, ?_⟩
      · intro h
        rcases List.mem_cons.mp h with h | h
        · simpa using h
        · rcases List.mem_append.mp h with h | h
          · exact absurd h hf.1
          · exact absurd h (by simp)
      · intro h
        rcases List.mem_cons.mp h with h | h
        · exact absurd h (by simp)
        · rcases List.mem_append.mp h with h | h
          · exact hf.2.1 h
          · exact absurd h (by simp)

/-- Events of a list's task loop carry only ids of tasks in the list. -/
theorem process_tasks_events_tags (detail : String → Outcome (List Att))
    (net : String → NetResult) (sname lname : String) (ts : List String) :
    ∀ (st : DiskState) (s : String),
    (Event.fetchDetail s ∈ (process_tasks detail net sname lname ts st).events ∨
     Event.attEval s ∈ (process_tasks detail net sname lname ts st).events) → s ∈ ts := by
  induction ts with
  | nil =>
      intro st s h
      rcases h with h | h <;> simp [process_tasks] at h
  | cons t ts ih =>
      intro st s h
      have ht := process_task_events_facts detail net sname lname st t s
      simp only [process_tasks] at h
      rcases h with h | h
      · rcases List.mem_append.mp h with h | h
        · rw [ht.1 h]
          exact List.mem_cons_self t ts
        · exact List.mem_cons_of_mem t (ih _ s (Or.inl h))
      · rcases List.mem_append.mp h with h | h
        · rw [ht.2 h]
          exact List.mem_cons_self t ts
        · exact List.mem_cons_of_mem t (ih _ s (Or.inr h))

/-- Any task id whose detail fetch or attachment evaluation appears in a
run's events was outside the processed set loaded at run start. -/
theorem run_go_events_tags (detail : String → Outcome (List Att))
    (net : String → NetResult) (processed : List String) (js : List Job) :
    ∀ (st : DiskState) (s : String),
    (Event.fetchDetail s ∈ (run_go detail net processed js st).events ∨
     Event.attEval s ∈ (run_go detail net processed js st).events) → s ∉ processed := by
  induction js with
  | nil =>
      intro st s h
      rcases h with h | h <;> simp [run_go] at h
  | cons j js ih =>
      intro st s h
      simp only [run_go] at h
      rcases h with h | h
      · rcases List.mem_append.mp h with h | h
        · have hs := process_tasks_events_tags detail net j.sname j.lname _ _ s (Or.inl h)
          exact of_decide_eq_true (List.mem_filter.mp hs).2
        · exact ih _ s (Or.inl h)
      · rcases List.mem_append.mp h with h | h
        · have hs := process_tasks_events_tags detail net j.sname j.lname _ _ s (Or.inr h)
          exact of_decide_eq_true (List.mem_filter.mp hs).2
        · exact ih _ s (Or.inr h)

/-- One task iteration can only grow the processed set. -/
theorem process_task_proc_mono (detail : String → Outcome (List Att))
    (net : String → NetResult) (sname lname : String) (st : DiskState) (tid x : String)
    (hx : x ∈ load_processed_tasks st.processedFile) :
    x ∈ load_processed_tasks (process_task detail net sname lname st tid).disk.processedFile := by
  unfold process_task
  split
  · exact hx
  · rename_i atts heq
    split
    · rw [process_atts_processedFile]
      exact hx
    · show x ∈ setInsert
        (load_processed_tasks (process_atts net sname lname tid atts st).disk.processedFile) tid
      rw [process_atts_processedFile]
      exact mem_setInsert_of_mem _ _ _ hx

/-- A list's task loop can only grow the processed set. -/
theorem process_tasks_proc_mono (detail : String → Outcome (List Att))
    (net : String → NetResult) (sname lname : String) (ts : List String) :
    ∀ (st : DiskState) (x : String), x ∈ load_processed_tasks st.processedFile →
    x ∈ load_processed_tasks (process_tasks detail net sname lname ts st).disk.processedFile := by
  induction ts with
  | nil => intro st x hx; exact hx
  | cons t ts ih =>
      intro st x hx
      simp only [process_tasks]
      exact ih _ x (process_task_proc_mono detail net sname lname st t x hx)

/-- A whole run can only grow the processed set. -/
theorem run_go_proc_mono (detail : String → Outcome (List Att))
    (net : String → NetResult) (processed : List String) (js : List Job) :
    ∀ (st : DiskState) (x : String), x ∈ load_processed_tasks st.processedFile →
    x ∈ load_processed_tasks (run_go detail net processed js st).disk.processedFile := by
  induction js with
  | nil => intro st x hx; exact hx
  | cons j js ih =>
      intro st x hx
      simp only [run_go]
      exact ih _ x (process_tasks_proc_mono detail net j.sname j.lname _ st x hx)

/-- C3: a task id in the processed set loaded at the start of a run is
never the subject of a detail fetch and never has an attachment loop
iteration during that run; the processed set only grows across the run;
and the single mutating operation, `mark_task_processed`, keeps every
existing member while adding its argument. -/
theorem C3_resume_correctness (detail : String → Outcome (List Att))
    (net : String → NetResult) (jobs : List Job) (disk : DiskState) (tid : String)
    (h : tid ∈ load_processed_tasks disk.processedFile) :
    Event.fetchDetail tid ∉ (run detail net jobs disk).events ∧
    Event.attEval tid ∉ (run detail net jobs disk).events ∧
    (∀ x, x ∈ load_processed_tasks disk.processedFile →
      x ∈ load_processed_tasks (run detail net jobs disk).disk.processedFile) ∧
    (∀ (st : DiskState) (t x : String),
      (x ∈ load_processed_tasks st.processedFile →
        x ∈ load_processed_tasks (mark_task_processed st t).processedFile) ∧
      t ∈ load_processed_tasks (mark_task_processed st t).processedFile) := by
  refine ⟨?_, ?_, ?_, ?_⟩
  · intro hev
    exact run_go_events_tags detail net _ jobs disk tid (Or.inl hev) h
  · intro hev
    exact run_go_events_tags detail net _ jobs disk tid (Or.inr hev) h
  · intro x hx
    exact run_go_proc_mono detail net _ jobs disk x hx
  · intro st t x
    constructor
    · intro hx
      exact mem_setInsert_of_mem _ _ _ hx
    · exact mem_setInsert_self _ _

/-- C3 witness: a concrete run over one list whose only task is already
in the processed ledger — nothing about it is fetched or re-evaluated. -/
theorem C3_witness :
    Event.fetchDetail "t1" ∉ (run twoRunDetail twoRunNet twoRunJobs
      ⟨[], .missing, .missing, .valid ["t1"], 0⟩).events ∧
    Event.attEval "t1" ∉ (run twoRunDetail twoRunNet twoRunJobs
      ⟨[], .missing, .missing, .valid ["t1"], 0⟩).events ∧
    (∀ x, x ∈ load_processed_tasks (⟨[], .missing, .missing, .valid ["t1"], 0⟩ : DiskState).processedFile →
      x ∈ load_processed_tasks (run twoRunDetail twoRunNet twoRunJobs
        ⟨[], .missing, .missing, .valid ["t1"], 0⟩).disk.processedFile) ∧
    (∀ (st : DiskState) (t x : String),
      (x ∈ load_processed_tasks st.processedFile →
        x ∈ load_processed_tasks (mark_task_processed st t).processedFile) ∧
      t ∈ load_processed_tasks (mark_task_processed st t).processedFile) :=
  C3_resume_correctness twoRunDetail twoRunNet twoRunJobs
    ⟨[], .missing, .missing, .valid ["t1"], 0⟩ "t1" (by decide)

/-- Filtering a list of ids against a processed set that contains all of
them leaves nothing. -/
theorem filter_all_processed (processed : List String) (l : List String)
    (h : ∀ t ∈ l, t ∈ processed) :
    l.filter (fun t => decide (t ∉ processed)) = [] := by
  induction l with
  | nil => rfl
  | cons a l ih =>
      have hd : decide (a ∉ processed) = false := by
        simp [h a (List.mem_cons_self a l)]
      rw [List.filter_cons, hd, if_neg (by simp)]
      exact ih fun t ht => h t (List.mem_cons_of_mem a ht)

/-- A run over jobs whose every task id is in the given processed set
performs no work at all. -/
theorem run_go_skip_all (detail : String → Outcome (List Att)) (net : String → NetResult)
    (processed : List String) (js : List Job) :
    ∀ st : DiskState, (∀ j ∈ js, ∀ t ∈ j.taskIds, t ∈ processed) →
    run_go detail net processed js st = ⟨st, [], 0, 0, false⟩ := by
  induction js with
  | nil => intro st h; rfl
  | cons j js ih =>
      intro st h
      simp only [run_go]
      rw [filter_all_processed processed j.taskIds (h j (List.mem_cons_self j js))]
      have h2 := ih st (fun j' hj' t ht => h j' (List.mem_cons_of_mem j hj') t ht)
      simp [process_tasks, h2]

/-- C2 (amended): re-running the pipeline against an unchanged remote and
the intact output directory of a first run in which every task ended up
marked processed performs no downloads at all and leaves the disk —
files, all three ledger files, and the clock — exactly as the first run
left it. (The amendment: the guarantee needs every task to be in the
processed ledger; a task the first run abandoned to a per-task exception
after logging a failed download is retried, and the retry appends a
second record to the failed-download ledger.) -/
theorem C2_idempotent_second_run (detail : String → Outcome (List Att))
    (net : String → NetResult) (jobs : List Job) (disk : DiskState)
    (h : ∀ j ∈ jobs, ∀ t ∈ j.taskIds, t ∈ load_processed_tasks disk.processedFile) :
    run detail net jobs disk = ⟨disk, [], 0, 0, false⟩ := by
  unfold run
  exact run_go_skip_all detail net _ jobs disk h

/-- C2 witness: the amended theorem on a one-task hierarchy whose task is
already in the processed ledger. -/
theorem C2_witness :
    run twoRunDetail twoRunNet twoRunJobs ⟨[], .missing, .missing, .valid ["t1"], 7⟩
      = ⟨⟨[], .missing, .missing, .valid ["t1"], 7⟩, [], 0, 0, false⟩ :=
  C2_idempotent_second_run twoRunDetail twoRunNet twoRunJobs
    ⟨[], .missing, .missing, .valid ["t1"], 7⟩ (by decide)

/-- C2 counterexample: in the two-run scenario the first run's task logs
one failed download and then dies on `att["url"]`, so it is not marked
processed; the second run, against the identical remote, retries it and
appends a second failed-download record — the failed-download ledger ends
with two records instead of one, so the ledgers are not equivalent even
up to ordering (both runs download zero files). -/
theorem C2_counterexample :
    (run twoRunDetail twoRunNet twoRunJobs emptyDisk).imgs = 0 ∧
    (load_failed_downloads
      (run twoRunDetail twoRunNet twoRunJobs emptyDisk).disk.failedFile).length = 1 ∧
    (run twoRunDetail twoRunNet twoRunJobs
      (run twoRunDetail twoRunNet twoRunJobs emptyDisk).disk).imgs = 0 ∧
    (load_failed_downloads (run twoRunDetail twoRunNet twoRunJobs
      (run twoRunDetail twoRunNet twoRunJobs emptyDisk).disk).disk.failedFile).length = 2 := by
  decide

/-- C4: the `except Exception` at the task boundary makes every task
iteration return normally. A raised detail fetch leaves the state exactly
as it was, with no attachment touched; a raise inside the attachment loop
leaves the processed set unchanged (so the task is retried next run); a
task whose attachments all complete — a handled download failure included,
which raises nothing and counts one failure — is marked processed; and in
every case the loop goes on to the next task with the accumulated state. -/
theorem C4_per_task_error_boundary (detail : String → Outcome (List Att))
    (net : String → NetResult) (sname lname : String) (st : DiskState) (tid : String) :
    (∀ msg, detail tid = .err msg →
      process_task detail net sname lname st tid = ⟨st, [.fetchDetail tid], 0, 0, false⟩) ∧
    (∀ atts, detail tid = .ok atts → (process_atts net sname lname tid atts st).raised = true →
      load_processed_tasks (process_task detail net sname lname st tid).disk.processedFile
        = load_processed_tasks st.processedFile) ∧
    (∀ atts, detail tid = .ok atts → (process_atts net sname lname tid atts st).raised = false →
      tid ∈ load_processed_tasks (process_task detail net sname lname st tid).disk.processedFile) ∧
    (∀ att fname u w m, pyOrStr att.title att.filename = some fname → att.url = some u →
      strStartsWith (att.mimetype.getD "") "image/" = true →
      is_duplicate st (destPath sname lname fname) u none = false →
      net u = .fail w m →
      (process_attachment net st sname lname tid att).raised = false ∧
      (process_attachment net st sname lname tid att).fails = 1) ∧
    (∀ ts, process_tasks detail net sname lname (tid :: ts) st
      = ⟨(process_tasks detail net sname lname ts
            (process_task detail net sname lname st tid).disk).disk,
         (process_task detail net sname lname st tid).events
           ++ (process_tasks detail net sname lname ts
                (process_task detail net sname lname st tid).disk).events,
         (process_task detail net sname lname st tid).imgs
           + (process_tasks detail net sname lname ts
                (process_task detail net sname lname st tid).disk).imgs,
         (process_task detail net sname lname st tid).fails
           + (process_tasks detail net sname lname ts
                (process_task detail net sname lname st tid).disk).fails,
         false⟩) := by
  refine ⟨?_, ?_, ?_, ?_, ?_⟩
  · intro msg hm
    simp only [process_task, hm]
  · intro atts ha hr
    simp only [process_task, ha]
    rw [if_pos hr]
    show load_processed_tasks (process_atts net sname lname tid atts st).disk.processedFile = _
    rw [process_atts_processedFile]
  · intro atts ha hok
    simp only [process_task, ha]
    rw [if_neg (by rw [hok]; simp)]
    show tid ∈ setInsert
      (load_processed_tasks (process_atts net sname lname tid atts st).disk.processedFile) tid
    exact mem_setInsert_self _ _
  · intro att fname u w m hf hu hm hdup hnet
    rw [process_attachment_not_dup net st sname lname tid att fname u hm hf hu hdup, hnet]
    exact ⟨rfl, rfl⟩
  · intro ts
    rfl

/-- C4 witness: the task-boundary theorem applied to a task whose detail
fetch raises, a task whose attachment loop raises after a logged download
failure, and a task that completes with no attachments. -/
theorem C4_witness :
    process_task (fun _ => Outcome.err "boom") twoRunNet "S" "L" emptyDisk "t1"
      = ⟨emptyDisk, [.fetchDetail "t1"], 0, 0, false⟩ ∧
    load_processed_tasks
      (process_task twoRunDetail twoRunNet "S" "L" emptyDisk "t1").disk.processedFile
      = load_processed_tasks emptyDisk.processedFile ∧
    "t1" ∈ load_processed_tasks
      (process_task (fun _ => Outcome.ok []) twoRunNet "S" "L" emptyDisk "t1").disk.processedFile :=
  ⟨(C4_per_task_error_boundary (fun _ => Outcome.err "boom") twoRunNet "S" "L"
      emptyDisk "t1").1 "boom" rfl,
   (C4_per_task_error_boundary twoRunDetail twoRunNet "S" "L" emptyDisk "t1").2.1
     [⟨some "image/png", some "f1", none, some "u1"⟩, ⟨some "image/png", some "f2", none, none⟩]
     rfl (by decide),
   (C4_per_task_error_boundary (fun _ => Outcome.ok []) twoRunNet "S" "L" emptyDisk "t1").2.2.1
     [] rfl (by decide)⟩

/-- C9 (amended): the attachment-level `time.sleep(RATE_DELAY)` sits
inside the non-duplicate branch only, so it runs after every download
attempt (successful or failed) and after nothing else — an attachment
skipped as a duplicate, like a non-image attachment, is followed by no
delay; the task-level sleep at the end of the loop body runs exactly
after tasks that complete normally (and are marked processed) — the
`except ... continue` jumps past it, so a task that raises, in its detail
fetch or in its attachment loop, is followed by no task delay. -/
theorem C9_rate_delay_placement (detail : String → Outcome (List Att))
    (net : String → NetResult) (st : DiskState) (sname lname tid : String) (att : Att) :
    (∀ fname u, pyOrStr att.title att.filename = some fname → att.url = some u →
      strStartsWith (att.mimetype.getD "") "image/" = true →
      is_duplicate st (destPath sname lname fname) u none = true →
      process_attachment net st sname lname tid att
        = ⟨st, [.attEval tid, .skipDup (destPath sname lname fname)], 0, 0, false⟩ ∧
      Event.sleepAtt ∉ (process_attachment net st sname lname tid att).events) ∧
    (strStartsWith (att.mimetype.getD "") "image/" = false →
      Event.sleepAtt ∉ (process_attachment net st sname lname tid att).events) ∧
    (∀ fname u st1 b, pyOrStr att.title att.filename = some fname → att.url = some u →
      strStartsWith (att.mimetype.getD "") "image/" = true →
      is_duplicate st (destPath sname lname fname) u none = false →
      download st (net u) u (destPath sname lname fname) = .ok (st1, b) →
      (process_attachment net st sname lname tid att).events
        = [.attEval tid, .downloadAttempt u (destPath sname lname fname), .sleepAtt]) ∧
    (∀ atts, detail tid = .ok atts → (process_atts net sname lname tid atts st).raised = false →
      (process_task detail net sname lname st tid).events
        = .fetchDetail tid :: (process_atts net sname lname tid atts st).events
            ++ [.markProc tid, .sleepTask]) ∧
    (∀ msg, detail tid = .err msg →
      Event.sleepTask ∉ (process_task detail net sname lname st tid).events) ∧
    (∀ atts, detail tid = .ok atts → (process_atts net sname lname tid atts st).raised = true →
      Event.sleepTask ∉ (process_task detail net sname lname st tid).events) := by
  refine ⟨?_, ?_, ?_, ?_, ?_, ?_⟩
  · intro fname u hf hu hm hdup
    have he := process_attachment_dup net st sname lname tid att fname u hm hf hu hdup
    refine ⟨he, ?_⟩
    rw [he]
    simp
  · intro hm
    rw [process_attachment_not_image net st sname lname tid att hm]
    simp
  · intro fname u st1 b hf hu hm hdup hdl
    rw [process_attachment_not_dup net st sname lname tid att fname u hm hf hu hdup, hdl]
    cases b <;> rfl
  · intro atts ha hok
    simp only [process_task, ha]
    rw [if_neg (by rw [hok]; simp)]
  · intro msg hm
    simp only [process_task, hm]
    simp
  · intro atts ha hr
    simp only [process_task, ha]
    rw [if_pos hr]
    intro h
    rcases List.mem_cons.mp h with h | h
    · exact absurd h (by simp)
    · exact (process_atts_events_facts net sname lname tid atts st tid).2.2 h

/-- C9 counterexample: a concrete image attachment that is evaluated and
skipped as a duplicate produces no rate-limit sleep at all, and a task
that raises is followed by no task-level sleep — the delay is not applied
after every attachment evaluated nor after every task. -/
theorem C9_counterexample :
    process_attachment (fun _ => NetResult.fail none "x")
      ⟨[("S/L/f", 5)], .valid [("S/L/f", ⟨"u", 5, 0⟩)], .missing, .missing, 1⟩
      "S" "L" "t" ⟨some "image/png", some "f", none, some "u"⟩
      = ⟨⟨[("S/L/f", 5)], .valid [("S/L/f", ⟨"u", 5, 0⟩)], .missing, .missing, 1⟩,
          [.attEval "t", .skipDup "S/L/f"], 0, 0, false⟩ ∧
    Event.sleepAtt ∉ (process_attachment (fun _ => NetResult.fail none "x")
      ⟨[("S/L/f", 5)], .valid [("S/L/f", ⟨"u", 5, 0⟩)], .missing, .missing, 1⟩
      "S" "L" "t" ⟨some "image/png", some "f", none, some "u"⟩).events ∧
    Event.sleepTask ∉ (process_task (fun _ => Outcome.err "boom")
      (fun _ => NetResult.fail none "x") "S" "L" emptyDisk "t").events := by
  decide

/-- C9 witness: the amended placement applied to a concrete duplicate
skip (no attachment delay) and to a concrete normally completing task
(task delay after the mark). -/
theorem C9_witness :
    Event.sleepAtt ∉ (process_attachment (fun _ => NetResult.fail none "y")
      ⟨[("S/L/g", 4)], .valid [("S/L/g", ⟨"v", 4, 0⟩)], .missing, .missing, 2⟩
      "S" "L" "t2" ⟨some "image/jpeg", some "g", none, some "v"⟩).events ∧
    (process_task (fun _ => Outcome.ok []) (fun _ => NetResult.fail none "y")
      "S" "L" emptyDisk "t2").events
      = .fetchDetail "t2" :: (process_atts (fun _ => NetResult.fail none "y")
          "S" "L" "t2" [] emptyDisk).events ++ [.markProc "t2", .sleepTask] :=
  ⟨((C9_rate_delay_placement (fun _ => Outcome.ok []) (fun _ => NetResult.fail none "y")
      ⟨[("S/L/g", 4)], .valid [("S/L/g", ⟨"v", 4, 0⟩)], .missing, .missing, 2⟩
      "S" "L" "t2" ⟨some "image/jpeg", some "g", none, some "v"⟩).1 "g" "v"
      (by decide) (by decide) (by decide) (by decide)).2,
   (C9_rate_delay_placement (fun _ => Outcome.ok []) (fun _ => NetResult.fail none "y")
      emptyDisk "S" "L" "t2" ⟨some "image/jpeg", some "g", none, some "v"⟩).2.2.2.1
      [] rfl (by decide)⟩
